import Mathlib

/-!
Verification of the E2E (Heidelberg `.e2e` container) reader,
`oct_converter/readers/e2e.py`.

The reader is modelled as pure functions over the file contents, given as a
byte list (`List Nat`, each entry < 256 in meaningful inputs).  Every stateful
`f.seek`/`f.read` pair in the source re-establishes the cursor from an absolute
offset (the directory walk, the per-block entry scan, and the per-chunk decode
each begin with a `seek`), so reads are modelled as absolute-offset slices and
sequential reads inside one record group as offset arithmetic.

Python floats: every float value the reader manipulates (`slice_id / 2`, the
custom-float values `(1 + m/1024) * 2**(e - 63)`) is an exact dyadic rational
that IEEE doubles represent exactly, so floats are modelled by the exact
dyadic type `PyFloat` below (`num / 2^den2`, without normalisation).  The
final gamma correction `256 * image ** (1.0/2.4)` is an irrational pointwise
map applied to a decoded slice; it is shape- and order-preserving and is
abstracted: slots store the decoded (pre-gamma) raster.
-/

set_option maxRecDepth 10000

namespace E2E

/-- Exact model of the dyadic Python floats used by the reader:
the value is `num / 2 ^ den2`.  Not normalised; all comparisons used by the
code go through value-level functions below. -/
structure PyFloat where
  num : Int
  den2 : Nat
deriving DecidableEq

/-- The exact rational value of a `PyFloat`. -/
def PyFloat.toRat (x : PyFloat) : ℚ := (x.num : ℚ) / 2 ^ x.den2

/-- Python `<` on two dyadic floats (cross-multiplied, exact). -/
def PyFloat.lt (x y : PyFloat) : Prop := x.num * 2 ^ y.den2 < y.num * 2 ^ x.den2

instance (x y : PyFloat) : Decidable (PyFloat.lt x y) :=
  inferInstanceAs (Decidable (_ < _))

/-- Python `== 0` on a dyadic float. -/
def PyFloat.isZero (x : PyFloat) : Prop := x.num = 0

instance (x : PyFloat) : Decidable (PyFloat.isZero x) :=
  inferInstanceAs (Decidable (_ = _))

/-- Python `> 0` on a dyadic float. -/
def PyFloat.pos (x : PyFloat) : Prop := 0 < x.num

instance (x : PyFloat) : Decidable (PyFloat.pos x) :=
  inferInstanceAs (Decidable (_ < _))

/-- Python `int()` (truncation toward zero) of a dyadic float. -/
def PyFloat.trunc (x : PyFloat) : Int :=
  if 0 ≤ x.num then (x.num.toNat / 2 ^ x.den2 : Nat)
  else -((-x.num).toNat / 2 ^ x.den2 : Nat)

/-- Python float of an integer (used by the FAF pass, which stores the raw
`slice_id`). -/
def PyFloat.ofInt (s : Int) : PyFloat := ⟨s, 0⟩

/-- Python `slice_id / 2` (true division of an integer by 2). -/
def PyFloat.half (s : Int) : PyFloat := ⟨s, 1⟩

/-- Python `pow(2, e)` for an integer exponent (exact power of two). -/
def PyFloat.pow2 (e : Int) : PyFloat :=
  if 0 ≤ e then ⟨2 ^ e.toNat, 0⟩ else ⟨1, (-e).toNat⟩

/-- Exact product of two dyadic floats. -/
def PyFloat.mul (x y : PyFloat) : PyFloat := ⟨x.num * y.num, x.den2 + y.den2⟩

theorem PyFloat.toRat_mul (x y : PyFloat) :
    (PyFloat.mul x y).toRat = x.toRat * y.toRat := by
  unfold PyFloat.mul PyFloat.toRat
  push_cast
  rw [pow_add]
  ring

theorem PyFloat.toRat_pow2 (e : Int) :
    (PyFloat.pow2 e).toRat = (2 : ℚ) ^ e := by
  unfold PyFloat.pow2 PyFloat.toRat
  by_cases h : 0 ≤ e
  · rw [if_pos h]
    push_cast
    rw [pow_zero, div_one]
    conv_rhs => rw [← Int.toNat_of_nonneg h]
    rw [zpow_natCast]
  · rw [if_neg h]
    have he : e = -((-e).toNat : ℤ) := by omega
    conv_rhs => rw [he]
    rw [zpow_neg, zpow_natCast]
    push_cast
    rw [one_div]

theorem PyFloat.lt_iff (x y : PyFloat) : PyFloat.lt x y ↔ x.toRat < y.toRat := by
  unfold PyFloat.lt PyFloat.toRat
  rw [div_lt_div_iff₀ (by positivity) (by positivity)]
  constructor
  · intro h
    exact_mod_cast h
  · intro h
    exact_mod_cast h

theorem PyFloat.isZero_iff (x : PyFloat) : PyFloat.isZero x ↔ x.toRat = 0 := by
  unfold PyFloat.isZero PyFloat.toRat
  rw [div_eq_zero_iff]
  constructor
  · intro h
    exact Or.inl (by exact_mod_cast h)
  · intro h
    rcases h with h | h
    · exact_mod_cast h
    · exact absurd h (by positivity)

/-! ## The custom 16-bit float decoder (`E2E.read_custom_float`)

The Python code builds the string
`bin(bytes[0])[2:].zfill(8)[::-1] + bin(bytes[1])[2:].zfill(8)[::-1]`
(each byte's bits, least-significant first), takes the first 10 characters as
the mantissa (read MSB-first by `int(_, 2)`), reverses the remaining 6
characters again before `int(_, 2)`, and returns
`(1 + mantissa/1024) * pow(2, exponent - 63)`. -/

/-- The bits of one byte, least-significant bit first
(`bin(b)[2:].zfill(8)[::-1]`). -/
def byteBitsLSB (b : Nat) : List Bool := (List.range 8).map b.testBit

/-- `int(s, 2)` on a bit string (most significant first). -/
def bitsToNatMSB (l : List Bool) : Nat :=
  l.foldl (fun acc b => 2 * acc + (if b then 1 else 0)) 0

/-- `E2E.read_custom_float`: `1 + mantissa/1024` is the dyadic
`(1024 + mantissa) / 2^10`, multiplied by `pow(2, exponent - 63)`. -/
def read_custom_float (b0 b1 : Nat) : PyFloat :=
  PyFloat.mul
    ⟨1024 + (bitsToNatMSB ((byteBitsLSB b0 ++ byteBitsLSB b1).take 10) : Int), 10⟩
    (PyFloat.pow2
      ((bitsToNatMSB ((byteBitsLSB b0 ++ byteBitsLSB b1).drop 10).reverse : Int) - 63))

/-- The numeric value (0 or 1) of bit `i` of byte `b`; used to state the
claims about the custom float independently of the list encoding. -/
def bitv (b i : Nat) : Nat := if Nat.testBit b i then 1 else 0

/-- The mantissa as the claim describes it: the first 10 bits of the
per-byte-reversed 16-bit string, read most-significant-first, i.e. bit 0 of
byte 0 carries weight 2^9 down to bit 1 of byte 1 with weight 2^0. -/
def claimMantissa (b0 b1 : Nat) : Nat :=
  512 * bitv b0 0 + 256 * bitv b0 1 + 128 * bitv b0 2 + 64 * bitv b0 3 +
  32 * bitv b0 4 + 16 * bitv b0 5 + 8 * bitv b0 6 + 4 * bitv b0 7 +
  2 * bitv b1 0 + bitv b1 1

/-- The biased exponent as the claim describes it: the remaining 6 bits,
reversed once more before interpretation, i.e. bit 7 of byte 1 carries
weight 2^5 down to bit 2 of byte 1 with weight 2^0. -/
def claimExponent (b0 b1 : Nat) : Nat :=
  32 * bitv b1 7 + 16 * bitv b1 6 + 8 * bitv b1 5 + 4 * bitv b1 4 +
  2 * bitv b1 3 + bitv b1 2

theorem byteBitsLSB_explicit (b : Nat) :
    byteBitsLSB b = [b.testBit 0, b.testBit 1, b.testBit 2, b.testBit 3,
      b.testBit 4, b.testBit 5, b.testBit 6, b.testBit 7] := rfl

theorem mantissa_eq (b0 b1 : Nat) :
    bitsToNatMSB ((byteBitsLSB b0 ++ byteBitsLSB b1).take 10) = claimMantissa b0 b1 := by
  rw [byteBitsLSB_explicit, byteBitsLSB_explicit]
  simp only [List.cons_append, List.nil_append, List.take, bitsToNatMSB,
    List.foldl_cons, List.foldl_nil, claimMantissa, bitv]
  ring

theorem exponent_eq (b0 b1 : Nat) :
    bitsToNatMSB ((byteBitsLSB b0 ++ byteBitsLSB b1).drop 10).reverse
      = claimExponent b0 b1 := by
  rw [byteBitsLSB_explicit, byteBitsLSB_explicit]
  simp only [List.cons_append, List.nil_append, List.drop, List.reverse_cons,
    List.reverse_nil, List.append_assoc, List.nil_append, List.cons_append,
    bitsToNatMSB, List.foldl_cons, List.foldl_nil, claimExponent, bitv]
  ring

theorem read_custom_float_value (b0 b1 : Nat) :
    (read_custom_float b0 b1).toRat
      = (1 + (claimMantissa b0 b1 : ℚ) / 1024)
        * (2 : ℚ) ^ ((claimExponent b0 b1 : ℤ) - 63) := by
  unfold read_custom_float
  rw [PyFloat.toRat_mul, PyFloat.toRat_pow2, mantissa_eq, exponent_eq]
  congr 1
  unfold PyFloat.toRat
  push_cast
  norm_num
  ring

/-! ## Byte-level record grammar

`construct` parses little-endian fixed-width integers at fixed offsets and
raises a stream error when fewer bytes are available than the record needs;
each parser below returns `none` exactly in that case.  (The `PaddedString`
magic fields are consumed positionally and never used by the reader's logic.)
-/

/-- Little-endian value of a byte list (least significant byte first). -/
def leNat (bs : List Nat) : Nat := bs.foldr (fun b acc => b + 256 * acc) 0

def u32At (data : List Nat) (off : Nat) : Nat := leNat ((data.drop off).take 4)

def u16At (data : List Nat) (off : Nat) : Nat := leNat ((data.drop off).take 2)

def u8At (data : List Nat) (off : Nat) : Nat := leNat ((data.drop off).take 1)

/-- `Int32sn`: the unsigned 32-bit value reinterpreted as two's complement. -/
def i32At (data : List Nat) (off : Nat) : Int :=
  let u := u32At data off
  if u < 2 ^ 31 then (u : Int) else (u : Int) - 2 ^ 32

/-- `main_directory_structure`: magic[12], version u32, unknown[10] u16,
then `num_entries` at offset 36, `current` at 40, `prev` at 44, unknown3. -/
structure MainDir where
  num_entries : Nat
  current : Nat
  prev : Nat
deriving DecidableEq

def parseMainDirAt (data : List Nat) (off : Nat) : Option MainDir :=
  if off + 52 ≤ data.length then
    some ⟨u32At data (off + 36), u32At data (off + 40), u32At data (off + 44)⟩
  else none

/-- `sub_directory_structure` (44 bytes): pos, start, size, unknown,
patient_id, study_id, series_id, slice_id (signed), unknown2/3 u16, type,
unknown4. -/
structure SubDirEntry where
  pos : Nat
  start : Nat
  size : Nat
  patient_id : Nat
  study_id : Nat
  series_id : Nat
  slice_id : Int
  type : Nat
deriving DecidableEq

def parseSubDirAt (data : List Nat) (off : Nat) : Option SubDirEntry :=
  if off + 44 ≤ data.length then
    some ⟨u32At data off, u32At data (off + 4), u32At data (off + 8),
      u32At data (off + 16), u32At data (off + 20), u32At data (off + 24),
      i32At data (off + 28), u32At data (off + 36)⟩
  else none

/-- `chunk_structure` (60 bytes): magic[12], unknown ×2, pos, size, unknown3,
patient_id, study_id, series_id, slice_id (signed), ind u16, unknown4 u16,
type, unknown5. -/
structure ChunkHeader where
  pos : Nat
  size : Nat
  patient_id : Nat
  study_id : Nat
  series_id : Nat
  slice_id : Int
  ind : Nat
  type : Nat
deriving DecidableEq

def parseChunkAt (data : List Nat) (off : Nat) : Option ChunkHeader :=
  if off + 60 ≤ data.length then
    some ⟨u32At data (off + 20), u32At data (off + 24), u32At data (off + 32),
      u32At data (off + 36), u32At data (off + 40), i32At data (off + 44),
      u16At data (off + 48), u32At data (off + 52)⟩
  else none

/-- `image_structure` (20 bytes): size, type, unknown, width, height; only
width and height are used. -/
structure ImageHdr where
  width : Nat
  height : Nat
deriving DecidableEq

def parseImageAt (data : List Nat) (off : Nat) : Option ImageHdr :=
  if off + 20 ≤ data.length then
    some ⟨u32At data (off + 12), u32At data (off + 16)⟩
  else none

/-- `lat_structure` (30 bytes: unknown[14] u16, laterality u8, unknown2 u8),
parsed from the 60-byte read after a type-11 chunk header; returns the
laterality byte.  The source's `except UnicodeDecodeError` can never fire on
these integer fields, so the only parse failure is a short read. -/
def parseLatAt (data : List Nat) (off : Nat) : Option Nat :=
  if off + 30 ≤ data.length then some (u8At data (off + 28)) else none

/-- `f.read(n)` at absolute offset `off` (may return fewer bytes near EOF). -/
def readAt (data : List Nat) (off n : Nat) : List Nat := (data.drop off).take n

/-! ## Python data structures: insertion-ordered dict, list assignment -/

/-- The volume key `'{patient_id}_{study_id}_{series_id}'` (the decimal
formatting of distinct id triples is injective, so the triple itself is
used). -/
abbrev VolKey := Nat × Nat × Nat

/-- Python dict lookup on an insertion-ordered association list. -/
def dictGet {α : Type} (d : List (VolKey × α)) (k : VolKey) : Option α :=
  match d with
  | [] => none
  | (k', v) :: rest => if k' = k then some v else dictGet rest k

/-- Python dict assignment: update in place, or append a new key at the end
(insertion order). -/
def dictSet {α : Type} (d : List (VolKey × α)) (k : VolKey) (v : α) :
    List (VolKey × α) :=
  match d with
  | [] => [(k, v)]
  | (k', v') :: rest =>
      if k' = k then (k', v) :: rest else (k', v') :: dictSet rest k v

/-- Python list index resolution: negative indices count from the end;
out-of-range (on either side) is an `IndexError`. -/
def pyIdx (len : Nat) (i : Int) : Option Nat :=
  if 0 ≤ i then (if i < (len : Int) then some i.toNat else none)
  else (if -i ≤ (len : Int) then some (len - (-i).toNat) else none)

/-- Python `l[i] = v`. -/
def pySet {α : Type} (l : List α) (i : Int) (v : α) : Option (List α) :=
  match pyIdx l.length i with
  | some n => some (l.set n v)
  | none => none

/-- `int(slice_id / 2) - 1`, the array placement index used by both the
`ind == 0` and `ind == 1` branches. -/
def placeIdx (slice_id : Int) : Int := PyFloat.trunc (PyFloat.half slice_id) - 1

/-! ## Phase 1: the directory chain walk

`current = main_directory.current; while current != 0: append(current);
seek(current); parse 52 bytes; current = chunk.prev`.  The loop has no cycle
protection, so the model takes a fuel argument; `diverge` means the source
loop is still running after `fuel` iterations. -/

/-- The uncaught Python exceptions a decode call can die with:
a construct stream error on a short record read, a `KeyError` from
`fundus_images[key]`, an `IndexError` from a pixel read or list assignment. -/
inductive PyErr where
  | truncated
  | keyError
  | indexError
deriving DecidableEq

inductive WalkRes where
  | ok (offsets : List Nat)
  | fail
  | diverge
deriving DecidableEq

def walkChain (data : List Nat) : Nat → Nat → WalkRes
  | _, 0 => .diverge
  | current, fuel + 1 =>
    if current = 0 then .ok []
    else
      match parseMainDirAt data current with
      | none => .fail
      | some dir =>
        match walkChain data dir.prev fuel with
        | .ok rest => .ok (current :: rest)
        | r => r

/-- The offsets appended by the walk within `fuel` iterations, whether or not
the loop has finished (used to observe revisits on cyclic chains). -/
def walkVisited (data : List Nat) : Nat → Nat → List Nat
  | _, 0 => []
  | current, fuel + 1 =>
    if current = 0 then []
    else
      match parseMainDirAt data current with
      | none => [current]
      | some dir => current :: walkVisited data dir.prev fuel

/-! ## Phase 2: the entry scan over all directory blocks -/

/-- State of the second pass: `volume_dict` (default mode only) and
`chunk_stack`. -/
structure ScanSt where
  vdict : List (VolKey × PyFloat)
  chunks : List (Nat × Nat)
deriving DecidableEq

def entryKey (e : SubDirEntry) : VolKey := (e.patient_id, e.study_id, e.series_id)

def chunkKey (c : ChunkHeader) : VolKey := (c.patient_id, c.study_id, c.series_id)

/-- Lines 136-139: first sight initialises `volume_dict[key]` to
`slice_id / 2`; later sights replace it when strictly larger. -/
def updateVolumeDict (d : List (VolKey × PyFloat)) (k : VolKey) (q : PyFloat) :
    List (VolKey × PyFloat) :=
  match dictGet d k with
  | none => dictSet d k q
  | some cur => if PyFloat.lt cur q then dictSet d k q else d

/-- Lines 128-141, one entry: in FAF mode only the live-chunk test runs; in
default mode the volume dict is updated with `slice_id / 2` for every entry
and live entries (`start > pos`) are pushed. -/
def scanEntry (faf : Bool) (st : ScanSt) (e : SubDirEntry) : ScanSt :=
  if faf then
    { st with chunks := if e.pos < e.start then st.chunks ++ [(e.start, e.size)] else st.chunks }
  else
    { vdict := updateVolumeDict st.vdict (entryKey e) (PyFloat.half e.slice_id),
      chunks := if e.pos < e.start then st.chunks ++ [(e.start, e.size)] else st.chunks }

/-- The `for ii in range(num_entries)` loop: consecutive 44-byte entries; a
short read is a construct stream error, fatal (`none`). -/
def scanEntriesAux (faf : Bool) (data : List Nat) :
    Nat → Nat → ScanSt → Option ScanSt
  | _, 0, st => some st
  | off, n + 1, st =>
    match parseSubDirAt data off with
    | none => none
    | some e => scanEntriesAux faf data (off + 44) n (scanEntry faf st e)

/-- The outer loop over `directory_stack`: re-read the 52-byte block at each
recorded offset, then its `num_entries` 44-byte entries. -/
def scanBlocks (faf : Bool) (data : List Nat) :
    List Nat → ScanSt → Option ScanSt
  | [], st => some st
  | p :: rest, st =>
    match parseMainDirAt data p with
    | none => none
    | some dir =>
      match scanEntriesAux faf data (p + 52) dir.num_entries st with
      | none => none
      | some st' => scanBlocks faf data rest st'

/-- Lines 143-152 (FAF mode only): fill `volume_dict` from the chunk headers
themselves; note the mixed scale of the source — the stored value is the RAW
`slice_id`, while the comparison uses `slice_id / 2`. -/
def fafFill (data : List Nat) :
    List (Nat × Nat) → List (VolKey × PyFloat) → Option (List (VolKey × PyFloat))
  | [], d => some d
  | (start, _) :: rest, d =>
    match parseChunkAt data start with
    | none => none
    | some c =>
      let d' :=
        match dictGet d (chunkKey c) with
        | none => dictSet d (chunkKey c) (PyFloat.ofInt c.slice_id)
        | some cur =>
            if PyFloat.lt cur (PyFloat.half c.slice_id) then
              dictSet d (chunkKey c) (PyFloat.ofInt c.slice_id)
            else d
      fafFill data rest d'

/-! ## Phase 3: materialising the per-volume slice arrays -/

inductive Lat where
  | R
  | L
deriving DecidableEq

/-- An 8-bit grayscale raster (`ind == 0`), reshaped to (height, width). -/
structure Image8 where
  height : Nat
  width : Nat
  pixels : List Nat
deriving DecidableEq

/-- A custom-float raster (`ind == 1`), reshaped to (width, height); pixels
are the decoded values before the pointwise gamma map. -/
structure ImageF where
  width : Nat
  height : Nat
  pixels : List PyFloat
deriving DecidableEq

/-- One slot of a volume's slice array: the `0` placeholder, an oct slice
raster, or the `(laterality, image)` tuple stored by the fundus branch.
(`img8` is a bare 8-bit raster appearing only inside assembled FAF output.) -/
inductive Slot where
  | placeholder
  | octImg (img : ImageF)
  | fundusPair (lat : Option Lat) (img : Image8)
  | img8 (img : Image8)
deriving DecidableEq

/-- Lines 154-167, one volume: FAF mode coerces a slice count of exactly 0 to
1 slot; both modes drop non-positive counts otherwise and build
`[0] * int(num_slices)`. -/
def materializeEntry (faf : Bool) (kv : VolKey × PyFloat) :
    Option (VolKey × List Slot) :=
  if faf then
    if PyFloat.isZero kv.2 then some (kv.1, [Slot.placeholder])
    else if PyFloat.pos kv.2 then
      some (kv.1, List.replicate (PyFloat.trunc kv.2).toNat Slot.placeholder)
    else none
  else
    if PyFloat.pos kv.2 then
      some (kv.1, List.replicate (PyFloat.trunc kv.2).toNat Slot.placeholder)
    else none

def materialize (faf : Bool) (d : List (VolKey × PyFloat)) :
    List (VolKey × List Slot) :=
  d.filterMap (materializeEntry faf)

/-! ## Phase 4: the chunk dispatch loop (lines 168-237) -/

/-- Dispatch-loop state: `self.laterality`, `volume_array_dict`,
`fundus_images` and the `numfun` counter.  NOTE: `fundus_images` is created
as a Python dict (`{}`, line 169); the default-mode branch stores into it by
key (line 213), while the FAF branch calls `.append` on it (line 204), which
raises `AttributeError`. -/
structure DispSt where
  lat : Option Lat
  arrays : List (VolKey × List Slot)
  fundus : List (VolKey × (Option Lat × Image8))
  numfun : Nat
deriving DecidableEq

/-- Result of processing chunks: normal completion, the early
`return fundus_images` executed by the `except` handler of the `ind == 0`
branch (lines 215-217), or an uncaught exception. -/
inductive DOut where
  | done (st : DispSt)
  | earlyFundus (fundus : List (VolKey × (Option Lat × Image8)))
  | fail (e : PyErr)
deriving DecidableEq

/-- Lines 181-184: byte 82 sets 'R', byte 76 sets 'L', anything else leaves
`self.laterality` unchanged. -/
def latUpdate (cur : Option Lat) (b : Nat) : Option Lat :=
  if b = 82 then some Lat.R else if b = 76 then some Lat.L else cur

/-- `map(read_custom_float, all_bits)` over consecutive 2-byte reads. -/
def decodePairs : List Nat → List PyFloat
  | b0 :: b1 :: rest => read_custom_float b0 b1 :: decodePairs rest
  | _ => []

/-- Lines 194-224, `ind == 0` (planar/fundus).  The `try` block covers the
pixel reads and the mode branch: a short pixel read (`struct.error`) or the
FAF-mode `fundus_images.append` (`AttributeError` on a dict) are both caught
by `except Exception`, which returns `fundus_images`.  In default mode a
known volume key gets the `numfun < 2` laterality heuristic, is stored in
`fundus_images[key]`, then the `(laterality, image)` tuple is also placed
into the slice array at `int(slice_id/2) - 1` (line 221, OUTSIDE the try, so
an out-of-range index is an uncaught `IndexError`). -/
def processPlanar (faf : Bool) (data : List Nat) (poff : Nat)
    (c : ChunkHeader) (im : ImageHdr) (st : DispSt) : DOut :=
  if 0 < im.height * im.width ∧ data.length < poff + im.height * im.width then
    .earlyFundus st.fundus
  else
    let img : Image8 := ⟨im.height, im.width, readAt data poff (im.height * im.width)⟩
    if faf then
      .earlyFundus st.fundus
    else
      match dictGet st.arrays (chunkKey c) with
      | some arr =>
        let tag := if st.numfun < 2 then some Lat.R else some Lat.L
        match pySet arr (placeIdx c.slice_id) (Slot.fundusPair tag img) with
        | some arr' =>
            .done ⟨tag, dictSet st.arrays (chunkKey c) arr',
              dictSet st.fundus (chunkKey c) (tag, img), st.numfun + 1⟩
        | none => .fail .indexError
      | none => .done st

/-- Lines 225-235, `ind == 1` (oct slice).  The 2-byte pixel reads are NOT
inside any try: a short read makes `read_custom_float` raise `IndexError`
(`bytes[1]` on a 0- or 1-byte string), which is fatal; so is an out-of-range
placement index. -/
def processOct (data : List Nat) (poff : Nat)
    (c : ChunkHeader) (im : ImageHdr) (st : DispSt) : DOut :=
  if 0 < im.height * im.width ∧ data.length < poff + 2 * (im.height * im.width) then
    .fail .indexError
  else
    let img : ImageF :=
      ⟨im.width, im.height, decodePairs (readAt data poff (2 * (im.height * im.width)))⟩
    match dictGet st.arrays (chunkKey c) with
    | some arr =>
      match pySet arr (placeIdx c.slice_id) (Slot.octImg img) with
      | some arr' => .done { st with arrays := dictSet st.arrays (chunkKey c) arr' }
      | none => .fail .indexError
    | none => .done st

/-- Lines 188-237: the `type == 1073741824` image branch; the 20-byte image
header read is outside the try (short read fatal); `ind` outside {0, 1} is
the "unrecognised chunk" print, chunk dropped. -/
def processImage (faf : Bool) (data : List Nat) (start : Nat)
    (c : ChunkHeader) (st : DispSt) : DOut :=
  if c.type = 1073741824 then
    match parseImageAt data (start + 60) with
    | none => .fail .truncated
    | some im =>
      if c.ind = 0 then processPlanar faf data (start + 80) c im st
      else if c.ind = 1 then processOct data (start + 80) c im st
      else .done st
  else .done st

/-- Lines 171-237, one chunk: parse the 60-byte header at `start` (short read
fatal); in FAF mode a `type == 11` chunk reads the laterality payload first
(a short read there is a construct stream error, NOT caught by the
`except UnicodeDecodeError`, hence fatal); then the image branch. -/
def processChunk (faf : Bool) (data : List Nat) (start : Nat) (st : DispSt) : DOut :=
  match parseChunkAt data start with
  | none => .fail .truncated
  | some c =>
    if faf ∧ c.type = 11 then
      match parseLatAt data (start + 60) with
      | none => .fail .truncated
      | some b => processImage faf data start c { st with lat := latUpdate st.lat b }
    else processImage faf data start c st

/-- The `for start, pos in chunk_stack` loop. -/
def dispatchChunks (faf : Bool) (data : List Nat) :
    List (Nat × Nat) → DispSt → DOut
  | [], st => .done st
  | (start, _) :: rest, st =>
    match processChunk faf data start st with
    | .done st' => dispatchChunks faf data rest st'
    | r => r

/-! ## Phase 5: assembly (lines 239-253) and the top-level reader -/

/-- `OCTVolumeWithMetaData(volume=…, laterality=…, patient_id=…)`. -/
structure OCTVol where
  patient_id : VolKey
  laterality : Option Lat
  volume : List Slot
deriving DecidableEq

/-- FAF assembly of one volume: `for lat, vol in volume` unpacks each slot as
a 2-tuple, emitting one single-slice entity per `(laterality, image)` pair;
the first slot that is not such a pair (e.g. the `0` placeholder) raises
`TypeError`/`ValueError`, caught per volume, skipping its remaining slots. -/
def fafEmit (k : VolKey) : List Slot → List OCTVol
  | [] => []
  | Slot.fundusPair lat img :: rest => ⟨k, lat, [Slot.img8 img]⟩ :: fafEmit k rest
  | _ :: _ => []

def assembleFAF (arrays : List (VolKey × List Slot)) : List OCTVol :=
  arrays.foldl (fun acc kv => acc ++ fafEmit kv.1 kv.2) []

/-- Default-mode assembly: `lat = fundus_images[key][0]` — a missing key is an
uncaught `KeyError` (`none`). -/
def assembleDefault (fundus : List (VolKey × (Option Lat × Image8))) :
    List (VolKey × List Slot) → Option (List OCTVol)
  | [] => some []
  | (k, vol) :: rest =>
    match dictGet fundus k with
    | none => none
    | some lv =>
      match assembleDefault fundus rest with
      | none => none
      | some vs => some (⟨k, lv.1, vol⟩ :: vs)

structure Output where
  vols : List OCTVol
  fundus : List (VolKey × (Option Lat × Image8))
deriving DecidableEq

/-- Result of a whole `read_oct_volume` call: the normal
`(oct_volumes, fundus_images)` pair, the early `return fundus_images` from
the `except` handler, an uncaught exception, or a directory walk still
running after the given fuel. -/
inductive DecodeRes where
  | full (out : Output)
  | partFundus (fundus : List (VolKey × (Option Lat × Image8)))
  | fail (e : PyErr)
  | diverge
deriving DecidableEq

/-- Phases 1-4 of `E2E.read_oct_volume` (everything before assembly), with
`faf` standing for `imagetype == "Fundus Autofluorescence"`. -/
inductive DispPhase where
  | done (st : DispSt)
  | earlyFundus (fundus : List (VolKey × (Option Lat × Image8)))
  | fail (e : PyErr)
  | diverge
deriving DecidableEq

def dispatchPhase (faf : Bool) (data : List Nat) (fuel : Nat) : DispPhase :=
  if data.length < 36 then .fail .truncated
  else
    match parseMainDirAt data 36 with
    | none => .fail .truncated
    | some md =>
      match walkChain data md.current fuel with
      | .diverge => .diverge
      | .fail => .fail .truncated
      | .ok stack =>
        match scanBlocks faf data stack ⟨[], []⟩ with
        | none => .fail .truncated
        | some sst =>
          match (if faf then fafFill data sst.chunks sst.vdict else some sst.vdict) with
          | none => .fail .truncated
          | some vdict =>
            match dispatchChunks faf data sst.chunks ⟨none, materialize faf vdict, [], 0⟩ with
            | .done dst => .done dst
            | .earlyFundus f => .earlyFundus f
            | .fail e => .fail e

/-- `E2E.read_oct_volume`, of the file contents `data`. -/
def read_oct_volume (faf : Bool) (data : List Nat) (fuel : Nat) : DecodeRes :=
  match dispatchPhase faf data fuel with
  | .diverge => .diverge
  | .fail e => .fail e
  | .earlyFundus f => .partFundus f
  | .done dst =>
    if faf then .full ⟨assembleFAF dst.arrays, dst.fundus⟩
    else
      match assembleDefault dst.fundus dst.arrays with
      | none => .fail .keyError
      | some vols => .full ⟨vols, dst.fundus⟩

/-! ## Concrete synthetic containers used to settle the scenario claims -/

def u32le (n : Nat) : List Nat :=
  [n % 256, n / 256 % 256, n / 65536 % 256, n / 16777216 % 256]

def u16le (n : Nat) : List Nat := [n % 256, n / 256 % 256]

def zeros (n : Nat) : List Nat := List.replicate n 0

/-- A 52-byte directory block (magic/version/unknown zeroed). -/
def mainDirBytes (numEntries current prev : Nat) : List Nat :=
  zeros 36 ++ u32le numEntries ++ u32le current ++ u32le prev ++ u32le 0

/-- A 44-byte directory entry. -/
def subEntryBytes (pos start size patient study series slice typ : Nat) : List Nat :=
  u32le pos ++ u32le start ++ u32le size ++ u32le 0 ++ u32le patient ++
  u32le study ++ u32le series ++ u32le slice ++ u16le 0 ++ u16le 0 ++
  u32le typ ++ u32le 0

/-- A 60-byte chunk header (magic and unused fields zeroed). -/
def chunkHdrBytes (patient study series slice ind typ : Nat) : List Nat :=
  zeros 12 ++ u32le 0 ++ u32le 0 ++ u32le 0 ++ u32le 0 ++ u32le 0 ++
  u32le patient ++ u32le study ++ u32le series ++ u32le slice ++
  u16le ind ++ u16le 0 ++ u32le typ ++ u32le 0

/-- A 20-byte image header. -/
def imgHdrBytes (width height : Nat) : List Nat :=
  u32le 0 ++ u32le 0 ++ u32le 0 ++ u32le width ++ u32le height

/-- The round-trip scenario container: header, first directory record whose
`current` points at offset 88, one directory block there (its own
`current' = 0`, `prev = 0`, 2 entries), two live entries for the volume key
(1,1,1) with slice ids 2 and 4, and two `ind = 1` image chunks of one
1×1 custom-float pixel each (bytes 0x00 0x00 and 0xFF 0xFF). -/
def c2bytes : List Nat :=
  zeros 36 ++ mainDirBytes 0 88 0 ++ mainDirBytes 2 0 0 ++
  subEntryBytes 0 228 0 1 1 1 2 0 ++ subEntryBytes 0 310 0 1 1 1 4 0 ++
  chunkHdrBytes 1 1 1 2 1 1073741824 ++ imgHdrBytes 1 1 ++ [0, 0] ++
  chunkHdrBytes 1 1 1 4 1 1073741824 ++ imgHdrBytes 1 1 ++ [255, 255]

/-- A container whose single directory block at offset 88 has `prev = 88`:
the `current → prev → …` chain is a self-loop and never reaches 0. -/
def c3bytes : List Nat :=
  zeros 36 ++ mainDirBytes 1 88 0 ++ mainDirBytes 1 0 88

/-- One live `ind = 1` image chunk whose 1×1 pixel payload is truncated
(only 1 of the required 2 bytes before EOF). -/
def c4bytes : List Nat :=
  zeros 36 ++ mainDirBytes 0 88 0 ++ mainDirBytes 1 0 0 ++
  subEntryBytes 0 184 0 1 1 1 2 0 ++
  chunkHdrBytes 1 1 1 2 1 1073741824 ++ imgHdrBytes 1 1 ++ [7]

/-- Two live `ind = 0` (planar) chunks: the first complete (1×1 pixel `9`),
the second truncated before its pixel byte. -/
def c4bbytes : List Nat :=
  zeros 36 ++ mainDirBytes 0 88 0 ++ mainDirBytes 2 0 0 ++
  subEntryBytes 0 228 0 1 1 1 2 0 ++ subEntryBytes 0 309 0 1 1 1 4 0 ++
  chunkHdrBytes 1 1 1 2 0 1073741824 ++ imgHdrBytes 1 1 ++ [9] ++
  chunkHdrBytes 1 1 1 4 0 1073741824 ++ imgHdrBytes 1 1

/-- A type-11 chunk header followed by a laterality payload whose laterality
byte (offset 28 of the payload) is 99, i.e. neither 82 nor 76. -/
def c5bytes : List Nat :=
  chunkHdrBytes 1 1 1 0 0 11 ++ zeros 28 ++ [99, 0]

/-- FAF-mode container with one live planar (`ind = 0`) image chunk whose
pixel payload is complete. -/
def c8bytes : List Nat :=
  zeros 36 ++ mainDirBytes 0 88 0 ++ mainDirBytes 1 0 0 ++
  subEntryBytes 0 184 0 1 1 1 2 0 ++
  chunkHdrBytes 1 1 1 2 0 1073741824 ++ imgHdrBytes 1 1 ++ [5]

/-- Default-mode container with four live planar chunks: the first for the
key (2,2,2), which gets no slice array (its only slice id is 0), then three
for the key (1,1,1) with slice ids 2, 4, 6 (pixels 22, 33, 44). -/
def c9bytes : List Nat :=
  zeros 36 ++ mainDirBytes 0 88 0 ++ mainDirBytes 4 0 0 ++
  subEntryBytes 0 316 0 2 2 2 0 0 ++ subEntryBytes 0 397 0 1 1 1 2 0 ++
  subEntryBytes 0 478 0 1 1 1 4 0 ++ subEntryBytes 0 559 0 1 1 1 6 0 ++
  chunkHdrBytes 2 2 2 0 0 1073741824 ++ imgHdrBytes 1 1 ++ [11] ++
  chunkHdrBytes 1 1 1 2 0 1073741824 ++ imgHdrBytes 1 1 ++ [22] ++
  chunkHdrBytes 1 1 1 4 0 1073741824 ++ imgHdrBytes 1 1 ++ [33] ++
  chunkHdrBytes 1 1 1 6 0 1073741824 ++ imgHdrBytes 1 1 ++ [44]

/-! ## Claim C1: the custom-float decoder -/

/-- C1: for every pair of input bytes the custom-float decoder returns
`(1 + mantissa/1024) * 2^(exponent - 63)`, where each byte's bits are
reversed (LSB first) before reassembly, the first 10 reversed bits form the
mantissa, and the remaining 6 bits are bit-reversed again before
interpretation as the biased exponent; decoding `0x00 0x00` yields exactly
`2^-63`, and any input with mantissa 1023 and unbiased exponent 0 yields
exactly `1 + 1023/1024`. -/
theorem C1_custom_float :
    (∀ b0 b1 : Nat, (read_custom_float b0 b1).toRat
        = (1 + (claimMantissa b0 b1 : ℚ) / 1024)
          * (2 : ℚ) ^ ((claimExponent b0 b1 : ℤ) - 63))
    ∧ (read_custom_float 0 0).toRat = (2 : ℚ) ^ (-63 : ℤ)
    ∧ (∀ b0 b1 : Nat, claimMantissa b0 b1 = 1023 → claimExponent b0 b1 = 63 →
        (read_custom_float b0 b1).toRat = 1 + 1023 / 1024) := by
  refine ⟨read_custom_float_value, ?_, ?_⟩
  · have h1 : claimMantissa 0 0 = 0 := by decide
    have h2 : claimExponent 0 0 = 0 := by decide
    rw [read_custom_float_value, h1, h2]
    norm_num
  · intro b0 b1 hm he
    rw [read_custom_float_value, hm, he]
    norm_num

/-- C1, witness: the bytes `0xFF 0xFF` have mantissa 1023 and biased
exponent 63 (unbiased 0), and decode to exactly `1 + 1023/1024`. -/
theorem C1_custom_float_wit :
    (read_custom_float 255 255).toRat = 1 + 1023 / 1024 :=
  C1_custom_float.2.2 255 255 (by decide) (by decide)

/-! ## Claim C2: the round-trip scenario -/

/-- C2: on the synthetic round-trip container the index/dispatch phases do
build exactly one volume whose 2-slot slice array has both slots holding
decoded rasters — but the call then dies with a `KeyError`: default-mode
assembly reads `fundus_images[key][0]` unconditionally (line 249) and the
container has no planar image chunk, so nothing is returned. -/
theorem C2_roundtrip_scenario :
    dispatchPhase false c2bytes 10 =
      .done ⟨none, [((1, 1, 1),
        [Slot.octImg ⟨1, 1, decodePairs [0, 0]⟩,
         Slot.octImg ⟨1, 1, decodePairs [255, 255]⟩])], [], 0⟩ ∧
    read_oct_volume false c2bytes 10 = .fail .keyError := by decide

/-! ## Claim C3: the directory chain walk -/

theorem c3_walk_diverge (fuel : Nat) : walkChain c3bytes 88 fuel = .diverge := by
  induction fuel with
  | zero => rfl
  | succ f ih =>
    have hp : parseMainDirAt c3bytes 88 = some ⟨1, 0, 88⟩ := by decide
    simp only [walkChain, hp, ih]
    decide

/-- C3, counterexample: the walk loop has no cycle protection.  On a
container whose single directory block at offset 88 has `prev = 88`, the
loop revisits offset 88 forever: the visited list `[88, 88, 88]` is not
duplicate-free, the walk is still running after 1000 iterations, and the
block's declared `num_entries` is 1, so the chain length is not bounded by
the declared entry count (nor by any safety cap, of which the code has
none). -/
theorem C3_cex :
    ¬ (walkVisited c3bytes 88 3).Nodup ∧
    walkVisited c3bytes 88 3 = [88, 88, 88] ∧
    walkChain c3bytes 88 1000 = .diverge ∧
    (parseMainDirAt c3bytes 88).map MainDir.num_entries = some 1 :=
  ⟨by decide, by decide, c3_walk_diverge 1000, by decide⟩

theorem walkChain_cons (data : List Nat) (c f : Nat) (dir : MainDir)
    (hc : c ≠ 0) (hp : parseMainDirAt data c = some dir) :
    walkChain data c (f + 1) =
      match walkChain data dir.prev f with
      | .ok rest => .ok (c :: rest)
      | r => r := by
  rw [walkChain, if_neg hc, hp]

theorem walkChain_mono (data : List Nat) :
    ∀ (fuel fuel' current : Nat) (l : List Nat), fuel ≤ fuel' →
      walkChain data current fuel = .ok l → walkChain data current fuel' = .ok l := by
  intro fuel
  induction fuel with
  | zero =>
    intro fuel' c l _ h
    exact absurd h (by simp [walkChain])
  | succ f ih =>
    intro fuel' c l hle h
    obtain ⟨f', rfl⟩ : ∃ f', fuel' = f' + 1 := ⟨fuel' - 1, by omega⟩
    by_cases hc : c = 0
    · subst hc
      rw [show walkChain data 0 (f + 1) = .ok [] from rfl] at h
      rw [show walkChain data 0 (f' + 1) = .ok [] from rfl]
      exact h
    · cases hp : parseMainDirAt data c with
      | none =>
        rw [walkChain, if_neg hc, hp] at h
        exact absurd h (by simp)
      | some dir =>
        cases hw : walkChain data dir.prev f with
        | ok rest =>
          rw [walkChain_cons data c f dir hc hp, hw] at h
          rw [walkChain_cons data c f' dir hc hp, ih f' dir.prev rest (by omega) hw]
          exact h
        | fail =>
          rw [walkChain_cons data c f dir hc hp, hw] at h
          exact absurd h (by simp)
        | diverge =>
          rw [walkChain_cons data c f dir hc hp, hw] at h
          exact absurd h (by simp)

theorem walkChain_suffix (data : List Nat) :
    ∀ (fuel current : Nat) (l : List Nat), walkChain data current fuel = .ok l →
      ∀ (i : Nat) (hi : i < l.length),
        walkChain data (l.get ⟨i, hi⟩) (fuel - i) = .ok (l.drop i) := by
  intro fuel
  induction fuel with
  | zero =>
    intro c l h
    exact absurd h (by simp [walkChain])
  | succ f ih =>
    intro c l h i hi
    by_cases hc : c = 0
    · subst hc
      rw [show walkChain data 0 (f + 1) = .ok [] from rfl] at h
      injection h with h'
      subst h'
      exact absurd hi (by simp)
    · cases hp : parseMainDirAt data c with
      | none =>
        rw [walkChain, if_neg hc, hp] at h
        exact absurd h (by simp)
      | some dir =>
        cases hw : walkChain data dir.prev f with
        | ok rest =>
          rw [walkChain_cons data c f dir hc hp, hw] at h
          have h2 : WalkRes.ok (c :: rest) = WalkRes.ok l := h
          injection h2 with h3
          subst h3
          cases i with
          | zero =>
            show walkChain data c (f + 1) = WalkRes.ok (c :: rest)
            rw [walkChain_cons data c f dir hc hp, hw]
          | succ j =>
            have hj : j < rest.length := by
              simp only [List.length_cons] at hi
              omega
            have hrec := ih dir.prev rest hw j hj
            have hsub : f + 1 - (j + 1) = f - j := by omega
            simpa [hsub] using hrec
        | fail =>
          rw [walkChain_cons data c f dir hc hp, hw] at h
          exact absurd h (by simp)
        | diverge =>
          rw [walkChain_cons data c f dir hc hp, hw] at h
          exact absurd h (by simp)

/-- C3, amended: the code has no safety cap, so the walk terminates only on
chains whose `prev` pointers reach 0 (a cyclic chain loops forever, see the
counterexample).  Whenever the walk does terminate, the offsets it visited
are pairwise distinct, and a first block with `current == 0` yields the
empty walk list without error. -/
theorem C3_amended (data : List Nat) (current fuel : Nat) (l : List Nat)
    (h : walkChain data current fuel = .ok l) :
    l.Nodup ∧ (current = 0 → l = []) := by
  constructor
  · rw [List.nodup_iff_injective_get]
    have key : ∀ x y : Fin l.length, x.val ≤ y.val → l.get x = l.get y → x = y := by
      intro x y hle hxy
      have ha := walkChain_suffix data fuel current l h x.val x.isLt
      have hb := walkChain_suffix data fuel current l h y.val y.isLt
      rw [show (⟨x.val, x.isLt⟩ : Fin l.length) = x from rfl, hxy] at ha
      rw [show (⟨y.val, y.isLt⟩ : Fin l.length) = y from rfl] at hb
      have hmono := walkChain_mono data (fuel - y.val) (fuel - x.val)
        (l.get y) (l.drop y.val) (by omega) hb
      rw [ha] at hmono
      injection hmono with hdrop
      have hlen := congrArg List.length hdrop
      simp only [List.length_drop] at hlen
      exact Fin.ext (by omega)
    intro a b hab
    rcases le_total a.val b.val with hor | hor
    · exact key a b hor hab
    · exact (key b a hor hab.symm).symm
  · intro hc
    subst hc
    cases fuel with
    | zero => exact absurd h (by simp [walkChain])
    | succ f =>
      rw [show walkChain data 0 (f + 1) = .ok [] from rfl] at h
      injection h with h'
      exact h'.symm

/-- C3, witness: on the round-trip container the walk terminates with the
single offset 88, which is duplicate-free. -/
theorem C3_amended_wit :
    ([88] : List Nat).Nodup ∧ ((88 : Nat) = 0 → ([88] : List Nat) = []) :=
  C3_amended c2bytes 88 10 [88] (by decide)

/-! ## Claim C4: which truncations are fatal -/

/-- C4, counterexample: a truncated read at the image-decode stage CAN be
globally fatal.  On a container whose single live chunk is a volumetric
(`ind == 1`) slice with its 2-byte pixel payload cut short, the 2-byte reads
feed `read_custom_float` a short string and the resulting `IndexError` is
uncaught (lines 226-227 are outside any try), so the whole decode call
fails and returns nothing. -/
theorem C4_cex : read_oct_volume false c4bytes 10 = .fail .indexError := by decide

/-- C4, amended: a truncated read at the image-decode stage is fatal for
volumetric (`ind == 1`) slices; only for planar (`ind == 0`) images is it
caught, and the early return then yields ONLY the reference images gathered
so far (the `return fundus_images` of line 217) — the assembled volumes are
discarded, not returned. -/
theorem C4_amended :
    read_oct_volume false c4bytes 10 = .fail .indexError ∧
    read_oct_volume false c4bbytes 10 =
      .partFundus [((1, 1, 1), (some Lat.R, ⟨1, 1, [9]⟩))] := by decide

/-! ## Claim C8: the FAF reference-image collection -/

/-- C8: in FAF mode NO decoded planar image is ever appended to the
reference-image collection: `fundus_images` is created as a dict (`{}`,
line 169) but the FAF branch calls `fundus_images.append(...)` (line 204),
an `AttributeError` that the broad `except Exception` catches, returning
immediately with the still-empty collection.  Here the container holds one
complete, well-formed planar image chunk, yet the call returns the early
`return fundus_images` value with an empty collection. -/
theorem C8_fundus_append :
    read_oct_volume true c8bytes 10 = .partFundus [] ∧
    parseChunkAt c8bytes 184 = some ⟨0, 0, 1, 1, 1, 2, 0, 1073741824⟩ := by decide

/-! ## Claim C9: the laterality heuristic for planar images -/

/-- C9, counterexample: the `numfun < 2` counter advances only on planar
images whose volume key is known.  On a container whose FIRST planar image
has an unknown key (dropped) followed by three known-key planar images
(pixels 22, 33, 44), the THIRD planar image encountered (pixel 33) is tagged
Right, not Left as the claim requires for images after the first two. -/
theorem C9_cex :
    read_oct_volume false c9bytes 10 =
      .full ⟨[⟨(1, 1, 1), some Lat.L,
          [Slot.fundusPair (some Lat.R) ⟨1, 1, [22]⟩,
           Slot.fundusPair (some Lat.R) ⟨1, 1, [33]⟩,
           Slot.fundusPair (some Lat.L) ⟨1, 1, [44]⟩]⟩],
        [((1, 1, 1), (some Lat.L, ⟨1, 1, [44]⟩))]⟩ ∧
    Slot.fundusPair (some Lat.R) (⟨1, 1, [33]⟩ : Image8) ≠
      Slot.fundusPair (some Lat.L) ⟨1, 1, [33]⟩ := by decide

/-! ## Claim C5: the laterality branch -/

/-- C5: processing a type-11 chunk in the mode that tracks laterality by
record updates `self.laterality` through `latUpdate`: payload byte 82 sets
Right, 76 sets Left, and any other byte leaves the current value unchanged —
in particular an unresolved (`none`) laterality stays `none`, so a pair
built for a subsequent reference image would carry no laterality. -/
theorem C5_laterality (data : List Nat) (start : Nat) (st : DispSt)
    (c : ChunkHeader) (b : Nat)
    (hc : parseChunkAt data start = some c) (ht : c.type = 11)
    (hb : parseLatAt data (start + 60) = some b) :
    processChunk true data start st = .done { st with lat := latUpdate st.lat b } ∧
    latUpdate st.lat 82 = some Lat.R ∧
    latUpdate st.lat 76 = some Lat.L ∧
    (b ≠ 82 → b ≠ 76 → latUpdate st.lat b = st.lat) := by
  refine ⟨?_, by simp [latUpdate], by simp [latUpdate], ?_⟩
  · simp [processChunk, hc, ht, hb, processImage]
  · intro h1 h2
    simp [latUpdate, h1, h2]

/-- C5, witness: a concrete type-11 chunk whose payload byte is 99 leaves an
unresolved laterality unresolved. -/
theorem C5_laterality_wit :
    processChunk true c5bytes 0 ⟨none, [], [], 0⟩ =
      .done { lat := latUpdate none 99, arrays := [], fundus := [], numfun := 0 } ∧
    latUpdate (none : Option Lat) 82 = some Lat.R ∧
    latUpdate (none : Option Lat) 76 = some Lat.L ∧
    ((99 : Nat) ≠ 82 → (99 : Nat) ≠ 76 → latUpdate (none : Option Lat) 99 = none) :=
  C5_laterality c5bytes 0 ⟨none, [], [], 0⟩ ⟨0, 0, 1, 1, 1, 0, 0, 11⟩ 99
    (by decide) rfl (by decide)

/-! ## Claim C6: slice counts and array materialisation -/

/-- The default-mode volume dict built by one pass over the parsed directory
entries (the fold of `scanEntry false`, starting from the empty state). -/
def buildVolumeDict (es : List SubDirEntry) : List (VolKey × PyFloat) :=
  (es.foldl (scanEntry false) ⟨[], []⟩).vdict

/-- The value `slice_id / 2` of one entry, as an exact rational. -/
def entryHalf (e : SubDirEntry) : ℚ := (e.slice_id : ℚ) / 2

/-- The maximum `slice_id / 2` observed among the entries carrying the given
volume key (`none` when the key never occurs). -/
def maxHalfSliceId (es : List SubDirEntry) (k : VolKey) : Option ℚ :=
  match (es.filter (fun e => decide (entryKey e = k))).map entryHalf with
  | [] => none
  | q :: qs => some (qs.foldl max q)

theorem toRat_half (s : Int) : (PyFloat.half s).toRat = (s : ℚ) / 2 := by
  unfold PyFloat.half PyFloat.toRat
  norm_num

theorem trunc_half (s : Int) (hs : 0 ≤ s) :
    PyFloat.trunc (PyFloat.half s) = ((s.toNat / 2 : Nat) : Int) := by
  show (if 0 ≤ s then ((s.toNat / 2 ^ 1 : Nat) : Int)
        else -(((-s).toNat / 2 ^ 1 : Nat) : Int)) = _
  rw [if_pos hs]
  norm_num

theorem dictGet_dictSet {α : Type} (d : List (VolKey × α)) (k k' : VolKey) (v : α) :
    dictGet (dictSet d k v) k' = if k = k' then some v else dictGet d k' := by
  induction d with
  | nil =>
    by_cases h : k = k' <;> simp [dictSet, dictGet, h]
  | cons hd tl ih =>
    obtain ⟨k0, v0⟩ := hd
    by_cases h0 : k0 = k
    · subst h0
      by_cases h : k0 = k' <;> simp [dictSet, dictGet, h]
    · by_cases h : k0 = k'
      · subst h
        have hks : ¬ (k = k0) := fun hh => h0 hh.symm
        simp [dictSet, dictGet, h0, hks]
      · simp [dictSet, dictGet, h0, h, ih]

theorem dictGet_updateVolumeDict (d : List (VolKey × PyFloat)) (k k' : VolKey)
    (q : PyFloat) :
    dictGet (updateVolumeDict d k q) k' =
      if k = k' then
        some (match dictGet d k with
              | none => q
              | some cur => if PyFloat.lt cur q then q else cur)
      else dictGet d k' := by
  unfold updateVolumeDict
  cases h : dictGet d k with
  | none => rw [dictGet_dictSet]
  | some cur =>
    show dictGet (if PyFloat.lt cur q then dictSet d k q else d) k' =
      if k = k' then some (if PyFloat.lt cur q then q else cur) else dictGet d k'
    by_cases hlt : PyFloat.lt cur q
    · rw [if_pos hlt, if_pos hlt, dictGet_dictSet]
    · rw [if_neg hlt, if_neg hlt]
      by_cases hk : k = k'
      · subst hk
        rw [if_pos rfl, h]
      · rw [if_neg hk]

/-- The running maximum (as the exact rational values) that the dict update
performs along a list of observed values. -/
def accMax : Option ℚ → List ℚ → Option ℚ
  | a, [] => a
  | a, q :: qs => accMax (some (match a with | none => q | some x => max x q)) qs

theorem accMax_cons (a : Option ℚ) (q : ℚ) (qs : List ℚ) :
    accMax a (q :: qs)
      = accMax (some (match a with | none => q | some x => max x q)) qs := rfl

theorem accMax_some (a : ℚ) (qs : List ℚ) :
    accMax (some a) qs = some (qs.foldl max a) := by
  induction qs generalizing a with
  | nil => rfl
  | cons q qs ih =>
    show accMax (some (max a q)) qs = some ((q :: qs).foldl max a)
    rw [List.foldl_cons]
    exact ih (max a q)

theorem scan_vdict_spec (es : List SubDirEntry) :
    ∀ (st : ScanSt) (k : VolKey),
      Option.map PyFloat.toRat (dictGet (es.foldl (scanEntry false) st).vdict k)
        = accMax (Option.map PyFloat.toRat (dictGet st.vdict k))
            ((es.filter (fun e => decide (entryKey e = k))).map entryHalf) := by
  induction es with
  | nil => intro st k; rfl
  | cons e es ih =>
    intro st k
    rw [List.foldl_cons, ih]
    have hv : (scanEntry false st e).vdict
        = updateVolumeDict st.vdict (entryKey e) (PyFloat.half e.slice_id) := rfl
    rw [hv, dictGet_updateVolumeDict]
    by_cases hk : entryKey e = k
    · rw [if_pos hk, List.filter_cons_of_pos (by simp [hk]), List.map_cons, hk]
      conv_rhs => rw [accMax_cons]
      congr 1
      have hhalf : (PyFloat.half e.slice_id).toRat = entryHalf e := by
        rw [toRat_half]
        rfl
      cases hcur : dictGet st.vdict k with
      | none =>
        show some (PyFloat.half e.slice_id).toRat = some (entryHalf e)
        rw [hhalf]
      | some cur =>
        show some (if PyFloat.lt cur (PyFloat.half e.slice_id)
            then PyFloat.half e.slice_id else cur).toRat
          = some (max cur.toRat (entryHalf e))
        by_cases hlt : PyFloat.lt cur (PyFloat.half e.slice_id)
        · have hq := (PyFloat.lt_iff cur (PyFloat.half e.slice_id)).mp hlt
          rw [hhalf] at hq
          rw [if_pos hlt, hhalf, max_eq_right (le_of_lt hq)]
        · have hq : ¬ cur.toRat < (PyFloat.half e.slice_id).toRat :=
            fun hcon => hlt ((PyFloat.lt_iff _ _).mpr hcon)
          rw [hhalf] at hq
          rw [if_neg hlt, max_eq_left (le_of_not_lt hq)]
    · rw [if_neg hk, List.filter_cons_of_neg (by simp [hk])]

theorem accMax_none_eq_maxHalf (es : List SubDirEntry) (k : VolKey) :
    accMax none ((es.filter (fun e => decide (entryKey e = k))).map entryHalf)
      = maxHalfSliceId es k := by
  unfold maxHalfSliceId
  cases h : (es.filter (fun e => decide (entryKey e = k))).map entryHalf with
  | nil => rfl
  | cons q rest =>
    show accMax (some q) rest = some (rest.foldl max q)
    exact accMax_some q rest

/-- C6: after one pass over all directory entries, the (default-mode) volume
dict holds, for each key, exactly the maximum `slice_id / 2` observed among
that key's entries; materialisation then builds one array per key with that
many placeholder slots when the count is positive, drops the key when the
count is 0 in default mode, and coerces a count of exactly 0 to one slot in
FAF mode only. -/
theorem C6_slice_counts :
    (∀ (es : List SubDirEntry) (k : VolKey),
      Option.map PyFloat.toRat (dictGet (buildVolumeDict es) k) = maxHalfSliceId es k) ∧
    (∀ (k : VolKey) (m : Nat), 0 < m →
      materializeEntry false (k, PyFloat.half (2 * (m : Int))) =
        some (k, List.replicate m Slot.placeholder)) ∧
    (∀ k : VolKey, materializeEntry false (k, PyFloat.half 0) = none) ∧
    (∀ k : VolKey, materializeEntry true (k, PyFloat.half 0) = some (k, [Slot.placeholder])) ∧
    (∀ (k : VolKey) (m : Nat), 0 < m →
      materializeEntry true (k, PyFloat.half (2 * (m : Int))) =
        some (k, List.replicate m Slot.placeholder)) := by
  have htrunc : ∀ m : Nat, (PyFloat.trunc (PyFloat.half (2 * (m : Int)))).toNat = m := by
    intro m
    rw [trunc_half _ (by positivity)]
    simp only [Int.toNat_natCast]
    omega
  have hpos : ∀ m : Nat, 0 < m → PyFloat.pos (PyFloat.half (2 * (m : Int))) := by
    intro m hm
    show (0 : Int) < 2 * (m : Int)
    omega
  refine ⟨?_, ?_, ?_, ?_, ?_⟩
  · intro es k
    unfold buildVolumeDict
    rw [scan_vdict_spec es ⟨[], []⟩ k]
    exact accMax_none_eq_maxHalf es k
  · intro k m hm
    show (if PyFloat.pos (PyFloat.half (2 * (m : Int))) then
            some (k, List.replicate (PyFloat.trunc (PyFloat.half (2 * (m : Int)))).toNat
              Slot.placeholder)
          else none) = some (k, List.replicate m Slot.placeholder)
    rw [if_pos (hpos m hm), htrunc m]
  · intro k
    show (if PyFloat.pos (PyFloat.half 0) then
            some (k, List.replicate (PyFloat.trunc (PyFloat.half 0)).toNat Slot.placeholder)
          else none) = none
    rw [if_neg (show ¬ PyFloat.pos (PyFloat.half 0) by
          show ¬ ((0 : Int) < 0)
          omega)]
  · intro k
    show (if PyFloat.isZero (PyFloat.half 0) then some (k, [Slot.placeholder])
          else if PyFloat.pos (PyFloat.half 0) then
            some (k, List.replicate (PyFloat.trunc (PyFloat.half 0)).toNat Slot.placeholder)
          else none) = some (k, [Slot.placeholder])
    rw [if_pos (show PyFloat.isZero (PyFloat.half 0) from rfl)]
  · intro k m hm
    show (if PyFloat.isZero (PyFloat.half (2 * (m : Int))) then some (k, [Slot.placeholder])
          else if PyFloat.pos (PyFloat.half (2 * (m : Int))) then
            some (k, List.replicate (PyFloat.trunc (PyFloat.half (2 * (m : Int)))).toNat
              Slot.placeholder)
          else none) = some (k, List.replicate m Slot.placeholder)
    rw [if_neg (show ¬ PyFloat.isZero (PyFloat.half (2 * (m : Int))) by
          show ¬ ((2 * (m : Int)) = 0)
          omega),
      if_pos (hpos m hm), htrunc m]

/-- C6, witness: two entries for the key (1,1,1) with slice ids 2 and 4 give
that key the maximum 2; a count of 2 materialises 2 slots in default mode and
a count of 1 materialises 1 slot in FAF mode. -/
theorem C6_slice_counts_wit :
    Option.map PyFloat.toRat (dictGet (buildVolumeDict
        [⟨0, 10, 0, 1, 1, 1, 2, 0⟩, ⟨0, 10, 0, 1, 1, 1, 4, 0⟩]) (1, 1, 1)) =
      maxHalfSliceId [⟨0, 10, 0, 1, 1, 1, 2, 0⟩, ⟨0, 10, 0, 1, 1, 1, 4, 0⟩] (1, 1, 1) ∧
    materializeEntry false ((1, 1, 1), PyFloat.half (2 * ((2 : Nat) : Int))) =
      some ((1, 1, 1), List.replicate 2 Slot.placeholder) ∧
    materializeEntry true ((1, 1, 1), PyFloat.half (2 * ((1 : Nat) : Int))) =
      some ((1, 1, 1), List.replicate 1 Slot.placeholder) :=
  ⟨C6_slice_counts.1 [⟨0, 10, 0, 1, 1, 1, 2, 0⟩, ⟨0, 10, 0, 1, 1, 1, 4, 0⟩] (1, 1, 1),
   C6_slice_counts.2.1 (1, 1, 1) 2 (by norm_num),
   C6_slice_counts.2.2.2.2 (1, 1, 1) 1 (by norm_num)⟩

/-! ## Claim C7: the slice placement index -/

/-- C7, counterexample: an odd `slice_id` is NOT flagged — it is silently
truncated by `int(slice_id / 2) - 1`.  A live oct chunk with the odd
`slice_id = 3` computes placement index 0, exactly as `slice_id = 2` does,
and `processOct` stores its raster at slot 0 without any error or flag: the
two runs are indistinguishable. -/
theorem C7_cex :
    placeIdx 3 = 0 ∧ placeIdx 2 = 0 ∧
    processOct [0, 0] 0 ⟨0, 0, 1, 1, 1, 3, 1, 1073741824⟩ ⟨1, 1⟩
        ⟨none, [((1, 1, 1), [Slot.placeholder])], [], 0⟩ =
      .done ⟨none, [((1, 1, 1), [Slot.octImg ⟨1, 1, decodePairs [0, 0]⟩])], [], 0⟩ ∧
    processOct [0, 0] 0 ⟨0, 0, 1, 1, 1, 3, 1, 1073741824⟩ ⟨1, 1⟩
        ⟨none, [((1, 1, 1), [Slot.placeholder])], [], 0⟩ =
      processOct [0, 0] 0 ⟨0, 0, 1, 1, 1, 2, 1, 1073741824⟩ ⟨1, 1⟩
        ⟨none, [((1, 1, 1), [Slot.placeholder])], [], 0⟩ := by decide

/-- C7, amended: evenness of `slice_id` is never checked: an odd
`slice_id = 2j + 1` silently collides with the even `slice_id = 2j` (same
placement index, no flag).  For the even ids in a volume's valid range
(`2 ≤ slice_id ≤ 2 * slice_count`) the placement index `slice_id/2 - 1` does
lie within `[0, slice_count)`. -/
theorem C7_amended :
    (∀ j : Nat, placeIdx (2 * (j : Int) + 1) = placeIdx (2 * (j : Int))) ∧
    (∀ (s : Int) (n : Nat), s % 2 = 0 → 2 ≤ s → s ≤ 2 * (n : Int) →
      0 ≤ placeIdx s ∧ placeIdx s < (n : Int)) := by
  constructor
  · intro j
    unfold placeIdx
    rw [trunc_half _ (by positivity), trunc_half _ (by positivity)]
    have e1 : (2 * (j : Int) + 1).toNat = 2 * j + 1 := by omega
    have e2 : (2 * (j : Int)).toNat = 2 * j := by omega
    rw [e1, e2]
    have e3 : (2 * j + 1) / 2 = (2 * j) / 2 := by omega
    rw [e3]
  · intro s n hmod h2 hn
    unfold placeIdx
    rw [trunc_half _ (by omega)]
    constructor <;> omega

/-- C7, amended, witness: slice ids 3 and 2 collide on index 0, and the even
slice id 2 of a 1-slot volume lands within bounds. -/
theorem C7_amended_wit :
    placeIdx (2 * ((1 : Nat) : Int) + 1) = placeIdx (2 * ((1 : Nat) : Int)) ∧
    (0 ≤ placeIdx 2 ∧ placeIdx 2 < ((1 : Nat) : Int)) :=
  ⟨C7_amended.1 1, C7_amended.2 2 1 (by norm_num) (by norm_num) (by norm_num)⟩

/-! ## Claim C9 (amended): the laterality counter -/

/-- C9, amended: in the assign-to-volume (default) mode the Right/Left tag of
a planar image is decided by the `numfun` counter of previously STORED
planar images: a known-key planar image is tagged Right while the counter is
below 2 (then Left), stored under its volume key and placed in the slice
array, and the counter advances; an unknown-key planar image is dropped
entirely and the counter does not advance — so with an unknown-key image
first, the second and third images encountered are both tagged Right. -/
theorem C9_amended (data : List Nat) (poff : Nat) (c : ChunkHeader)
    (im : ImageHdr) (st : DispSt)
    (hpix : ¬ (0 < im.height * im.width ∧ data.length < poff + im.height * im.width)) :
    (∀ arr arr', dictGet st.arrays (chunkKey c) = some arr →
      pySet arr (placeIdx c.slice_id)
        (Slot.fundusPair (if st.numfun < 2 then some Lat.R else some Lat.L)
          ⟨im.height, im.width, readAt data poff (im.height * im.width)⟩) = some arr' →
      processPlanar false data poff c im st =
        .done ⟨(if st.numfun < 2 then some Lat.R else some Lat.L),
          dictSet st.arrays (chunkKey c) arr',
          dictSet st.fundus (chunkKey c)
            ((if st.numfun < 2 then some Lat.R else some Lat.L),
             ⟨im.height, im.width, readAt data poff (im.height * im.width)⟩),
          st.numfun + 1⟩) ∧
    (dictGet st.arrays (chunkKey c) = none →
      processPlanar false data poff c im st = .done st) := by
  constructor
  · intro arr arr' ha hset
    unfold processPlanar
    rw [if_neg hpix]
    simp only [Bool.false_eq_true, if_false, ha, hset]
  · intro ha
    unfold processPlanar
    rw [if_neg hpix]
    simp only [Bool.false_eq_true, if_false, ha]

/-- C9, amended, witness: with the counter at 0 a known-key planar image is
tagged Right, stored and placed, and the counter advances to 1. -/
theorem C9_amended_wit :
    processPlanar false [0] 0 ⟨0, 0, 1, 1, 1, 2, 0, 1073741824⟩ ⟨1, 1⟩
        ⟨none, [((1, 1, 1), [Slot.placeholder])], [], 0⟩ =
      .done ⟨some Lat.R,
        [((1, 1, 1), [Slot.fundusPair (some Lat.R) ⟨1, 1, [0]⟩])],
        [((1, 1, 1), (some Lat.R, ⟨1, 1, [0]⟩))], 1⟩ :=
  (C9_amended [0] 0 ⟨0, 0, 1, 1, 1, 2, 0, 1073741824⟩ ⟨1, 1⟩
      ⟨none, [((1, 1, 1), [Slot.placeholder])], [], 0⟩ (by decide)).1
    [Slot.placeholder] [Slot.fundusPair (some Lat.R) ⟨1, 1, [0]⟩]
    (by decide) (by decide)

/-! ## Claim C10: slice_id 0 writes the last slot -/

theorem pySet_neg_one {α : Type} (l : List α) (v : α) (hne : l ≠ []) :
    pySet l (-1) v = some (l.set (l.length - 1) v) := by
  unfold pySet pyIdx
  rw [if_neg (by norm_num)]
  have hlen : 1 ≤ l.length := List.length_pos.mpr hne
  rw [if_pos (by omega : -(-1 : Int) ≤ (l.length : Int))]
  norm_num

/-- C10: for a live oct chunk with `slice_id = 0` whose volume key is known,
the placement index `int(0 / 2) - 1 = -1` is never rejected: Python's
negative indexing silently writes the decoded raster into the LAST slot of
the volume's slice array. -/
theorem C10_slice_zero (data : List Nat) (poff : Nat) (c : ChunkHeader)
    (im : ImageHdr) (st : DispSt) (arr : List Slot)
    (hid : c.slice_id = 0)
    (ha : dictGet st.arrays (chunkKey c) = some arr)
    (hne : arr ≠ [])
    (hpix : ¬ (0 < im.height * im.width ∧ data.length < poff + 2 * (im.height * im.width))) :
    placeIdx 0 = -1 ∧
    processOct data poff c im st =
      .done ⟨st.lat,
        dictSet st.arrays (chunkKey c)
          (arr.set (arr.length - 1)
            (Slot.octImg ⟨im.width, im.height,
              decodePairs (readAt data poff (2 * (im.height * im.width)))⟩)),
        st.fundus, st.numfun⟩ := by
  refine ⟨by decide, ?_⟩
  unfold processOct
  rw [if_neg hpix]
  simp only [ha, hid]
  rw [show placeIdx 0 = -1 from by decide, pySet_neg_one arr _ hne]

/-- C10, witness: an oct chunk with `slice_id = 0` on a 2-slot volume writes
the decoded 1×1 raster into slot 1 (the last slot). -/
theorem C10_slice_zero_wit :
    placeIdx 0 = -1 ∧
    processOct [0, 0] 0 ⟨0, 0, 1, 1, 1, 0, 1, 1073741824⟩ ⟨1, 1⟩
        ⟨none, [((1, 1, 1), [Slot.placeholder, Slot.placeholder])], [], 0⟩ =
      .done ⟨none, [((1, 1, 1),
          [Slot.placeholder, Slot.octImg ⟨1, 1, decodePairs [0, 0]⟩])], [], 0⟩ :=
  C10_slice_zero [0, 0] 0 ⟨0, 0, 1, 1, 1, 0, 1, 1073741824⟩ ⟨1, 1⟩
    ⟨none, [((1, 1, 1), [Slot.placeholder, Slot.placeholder])], [], 0⟩
    [Slot.placeholder, Slot.placeholder] rfl (by decide) (by decide) (by decide)

end E2E
